import Mathlib

/-!
Verification development for the Project_finder scan/matching pipeline.

Shallow embedding of the backend services:
  * `backend/models/core_models.py` (Project record and its requirement accessors),
  * `backend/web_scraper.py` (`_consolidate_data`, the date rules and the
    pagination loop of `scan_website_stream`),
  * `backend/deduplication_service.py` (duplicate predicate and the
    find/remove pass),
  * `backend/tfidf_service.py` (`calculate_idf_factors`),
  * `backend/matching_service.py` (`_match_project` and its lookup tables),
  * `backend/scan_service.py` (the global scan lock).

Python floats are modelled as exact rationals; the external similarity
metric (cosine / normalized inverse Euclidean, computed by numpy) and
`math.log` are abstracted as function parameters.  Dates are modelled as
integer day numbers after parsing.  Python dictionaries are modelled as
insertion-ordered association lists with first-match lookup.
-/

namespace ProjectFinder

/-! ## Association-list dictionary operations -/

/-- First-match lookup in an association list (Python `dict.get`). -/
def alookup {β : Type} (k : String) : List (String × β) → Option β
  | [] => none
  | e :: t => if k = e.1 then some e.2 else alookup k t

/-- Keys of an association list. -/
def keysOf {β : Type} (l : List (String × β)) : List String := l.map Prod.fst

theorem alookup_isSome_iff_mem_keys {β : Type} (l : List (String × β)) (k : String) :
    (alookup k l).isSome = true ↔ k ∈ keysOf l := by
  induction l with
  | nil => simp [keysOf, alookup]
  | cons e t ih =>
    by_cases h : k = e.1
    · simp [keysOf, alookup, h]
    · simp only [keysOf, alookup, if_neg h, List.map_cons, List.mem_cons]
      rw [show (keysOf t = t.map Prod.fst) from rfl] at ih
      rw [ih]
      constructor
      · exact Or.inr
      · rintro (h' | h')
        · exact absurd h'.symm (Ne.symm h)
        · exact h'

theorem alookup_eq_none_of_not_mem {β : Type} {l : List (String × β)} {k : String}
    (h : k ∉ keysOf l) : alookup k l = none := by
  cases hl : alookup k l with
  | none => rfl
  | some v => exact absurd ((alookup_isSome_iff_mem_keys l k).mp (by simp [hl])) h

/-! ## JSON values and the `requirements_tf` text column -/

/-- JSON values as they can come out of `json.loads` on the
`requirements_tf` column.  Objects carry integer counts, which is the shape
`set_requirements_tf` writes; the other constructors cover non-object
documents that a text column can hold. -/
inductive JVal where
  | obj (fields : List (String × Int))
  | num (n : Int)
  | str (s : String)
  | boolv (b : Bool)
  | nullv
deriving Repr, DecidableEq

/-- Python truthiness of a parsed JSON value (`{}`, `0`, `""`, `False`,
`None` are falsy). -/
def JVal.truthy : JVal → Bool
  | .obj f => !f.isEmpty
  | .num n => n != 0
  | .str s => !s.isEmpty
  | .boolv b => b
  | .nullv => false

/-- Content of the nullable `requirements_tf` Text column, abstracted by the
outcome of `json.loads` on it: SQL NULL, the empty string, non-empty text
that fails to parse, or non-empty text parsing to a JSON value. -/
inductive ReqText where
  | nullCol
  | emptyStr
  | invalidJson
  | jsonOf (v : JVal)
deriving Repr, DecidableEq

/-! ## The Project record (`backend/models/core_models.py`) -/

/-- The columns of the `projects` table that the pipeline under
verification reads.  String columns are nullable (`Option`). -/
structure Project where
  id : Nat
  title : Option String := none
  location : Option String := none
  tenderer : Option String := none
  project_id : Option String := none
  url : Option String := none
  start_date : Option String := none
  release_date : Option String := none
  requirements_tf : ReqText := .nullCol
deriving Repr, DecidableEq

/-- `Project.get_requirements_tf`: returns `{}` when the stored text is
falsy (NULL or empty) or raises `JSONDecodeError`, else the parsed JSON
value (whatever its type). -/
def Project.get_requirements_tf (p : Project) : JVal :=
  match p.requirements_tf with
  | .nullCol => .obj []
  | .emptyStr => .obj []
  | .invalidJson => .obj []
  | .jsonOf v => v

/-- `Project.get_requirements_list`: `list(requirements_tf.keys()) if
requirements_tf else []`.  Calling `.keys()` on a truthy non-dict value
raises `AttributeError`, modelled by `Except.error`. -/
def Project.get_requirements_list (p : Project) : Except String (List String) :=
  let tf := p.get_requirements_tf
  if tf.truthy then
    match tf with
    | .obj fields => .ok (fields.map Prod.fst)
    | _ => .error "AttributeError"
  else .ok []

/-! ## Field Consolidator (`web_scraper._consolidate_data`, lines 751-759)

The requirement-map merge: start from the level-2 map, then fold the
level-3 entries in, summing counts for keys already present and appending
new keys in order. -/

def mergeRequirements (l2 l3 : List (String × Int)) : List (String × Int) :=
  l3.foldl
    (fun acc kv =>
      if (alookup kv.1 acc).isSome then
        acc.map (fun e => if e.1 = kv.1 then (e.1, e.2 + kv.2) else e)
      else acc ++ [kv])
    l2

/-! ### Association-list lemmas about the merge -/

theorem alookup_mapUpdate {β : Type} (l : List (String × β)) (k0 k : String) (f : β → β) :
    alookup k (l.map (fun e => if e.1 = k0 then (e.1, f e.2) else e)) =
      if k = k0 then (alookup k l).map f else alookup k l := by
  induction l with
  | nil => by_cases h : k = k0 <;> simp [alookup, h]
  | cons e t ih =>
    by_cases he : e.1 = k0
    · simp only [List.map_cons, if_pos he, alookup]
      by_cases hk : k = e.1
      · have hk0 : k = k0 := hk.trans he
        rw [if_pos hk, if_pos hk0, if_pos hk]
        rfl
      · rw [if_neg hk, ih]
        by_cases hk0 : k = k0
        · rw [if_pos hk0, if_pos hk0, if_neg hk]
        · rw [if_neg hk0, if_neg hk0, if_neg hk]
    · simp only [List.map_cons, if_neg he, alookup]
      by_cases hk : k = e.1
      · have hk0 : ¬k = k0 := fun h => he (hk.symm.trans h)
        rw [if_pos hk, if_neg hk0, if_pos hk]
      · rw [if_neg hk, ih]
        by_cases hk0 : k = k0
        · rw [if_pos hk0, if_pos hk0, if_neg hk]
        · rw [if_neg hk0, if_neg hk0, if_neg hk]

theorem alookup_append_single {β : Type} (l : List (String × β)) (k0 k : String) (v0 : β) :
    alookup k (l ++ [(k0, v0)]) =
      match alookup k l with
      | some v => some v
      | none => if k = k0 then some v0 else none := by
  induction l with
  | nil => by_cases h : k = k0 <;> simp [alookup, h]
  | cons e t ih =>
    by_cases hk : k = e.1
    · simp [alookup, hk]
    · simp only [List.cons_append, alookup, if_neg hk]
      exact ih

/-- How one step of the merge loop changes lookups. -/
theorem alookup_merge_step (acc : List (String × Int)) (kv : String × Int) (k : String) :
    alookup k
      (if (alookup kv.1 acc).isSome then
        acc.map (fun e => if e.1 = kv.1 then (e.1, e.2 + kv.2) else e)
      else acc ++ [kv]) =
      if k = kv.1 then
        match alookup k acc with
        | some a => some (a + kv.2)
        | none => some kv.2
      else alookup k acc := by
  by_cases hs : (alookup kv.1 acc).isSome
  · rw [if_pos hs, alookup_mapUpdate acc kv.1 k (· + kv.2)]
    by_cases hk : k = kv.1
    · rw [if_pos hk, if_pos hk, hk]
      obtain ⟨a, ha⟩ := Option.isSome_iff_exists.mp hs
      rw [ha]
      rfl
    · rw [if_neg hk, if_neg hk]
  · rw [if_neg hs, alookup_append_single]
    have hnone : alookup kv.1 acc = none := Option.not_isSome_iff_eq_none.mp hs
    by_cases hk : k = kv.1
    · rw [if_pos hk, hk, hnone]
      simp
    · rw [if_neg hk]
      cases h : alookup k acc <;> simp [h, hk]

/-- Lookup in the merged requirement map: sum where both sides have the
key, the single value where only one side has it.  Requires the level-3
map to have no duplicate keys (it is a parsed Python dict). -/
theorem alookup_mergeRequirements (l2 l3 : List (String × Int))
    (h3 : (keysOf l3).Nodup) (k : String) :
    alookup k (mergeRequirements l2 l3) =
      match alookup k l2, alookup k l3 with
      | some a, some b => some (a + b)
      | some a, none => some a
      | none, some b => some b
      | none, none => none := by
  induction l3 generalizing l2 with
  | nil =>
    cases h : alookup k l2 <;> simp [mergeRequirements, alookup, h]
  | cons kv t ih =>
    have h3' : (kv.1 :: keysOf t).Nodup := h3
    have hnd : (keysOf t).Nodup := (List.nodup_cons.mp h3').2
    have hmem : kv.1 ∉ keysOf t := (List.nodup_cons.mp h3').1
    have step :
        mergeRequirements l2 (kv :: t) =
          mergeRequirements
            (if (alookup kv.1 l2).isSome then
              l2.map (fun e => if e.1 = kv.1 then (e.1, e.2 + kv.2) else e)
            else l2 ++ [kv]) t := by
      simp only [mergeRequirements, List.foldl_cons]
    rw [step, ih _ hnd, alookup_merge_step]
    by_cases hk : k = kv.1
    · have ht : alookup k t = none := alookup_eq_none_of_not_mem (hk ▸ hmem)
      have hcons : alookup k (kv :: t) = some kv.2 := by simp [alookup, hk]
      rw [if_pos hk, ht, hcons]
      cases alookup k l2 <;> rfl
    · have hcons : alookup k (kv :: t) = alookup k t := by simp [alookup, hk]
      rw [if_neg hk, hcons]

/-- **C5**: the consolidated requirement term-frequency map of
`_consolidate_data` has the union of both inputs' keys; a key present in
both maps to the sum of the two counts, a key present in one side maps to
that side's count. -/
theorem consolidate_requirements_tf_merge (l2 l3 : List (String × Int))
    (h3 : (keysOf l3).Nodup) :
    (∀ k a b, alookup k l2 = some a → alookup k l3 = some b →
        alookup k (mergeRequirements l2 l3) = some (a + b)) ∧
    (∀ k a, alookup k l2 = some a → alookup k l3 = none →
        alookup k (mergeRequirements l2 l3) = some a) ∧
    (∀ k b, alookup k l2 = none → alookup k l3 = some b →
        alookup k (mergeRequirements l2 l3) = some b) ∧
    (∀ k, k ∈ keysOf (mergeRequirements l2 l3) ↔ k ∈ keysOf l2 ∨ k ∈ keysOf l3) := by
  refine ⟨?_, ?_, ?_, ?_⟩
  · intro k a b h2 hb
    rw [alookup_mergeRequirements l2 l3 h3 k, h2, hb]
  · intro k a h2 hb
    rw [alookup_mergeRequirements l2 l3 h3 k, h2, hb]
  · intro k b h2 hb
    rw [alookup_mergeRequirements l2 l3 h3 k, h2, hb]
  · intro k
    rw [← alookup_isSome_iff_mem_keys, ← alookup_isSome_iff_mem_keys,
      ← alookup_isSome_iff_mem_keys, alookup_mergeRequirements l2 l3 h3 k]
    cases h2 : alookup k l2 <;> cases hb : alookup k l3 <;> simp

/-- **C5 witness**: consolidating `{"Python": 2}` with
`{"Python": 1, "SQL": 1}` yields `{"Python": 3, "SQL": 1}`, and the general
theorem applies at the key `"Python"`. -/
theorem consolidate_requirements_tf_merge_witness :
    mergeRequirements [("Python", 2)] [("Python", 1), ("SQL", 1)] =
        [("Python", 3), ("SQL", 1)] ∧
    alookup "Python" (mergeRequirements [("Python", 2)] [("Python", 1), ("SQL", 1)]) =
        some 3 := by
  refine ⟨by decide, ?_⟩
  exact (consolidate_requirements_tf_merge [("Python", 2)] [("Python", 1), ("SQL", 1)]
    (by decide)).1 "Python" 2 1 (by decide) (by decide)

/-! ## C10: totality of the requirement accessors -/

/-- **C10 counterexample**: a Project whose stored `requirements_tf` text is
the valid JSON document `5` (not an object).  `get_requirements_tf` returns
the number 5 rather than a map, and `get_requirements_list` raises
`AttributeError` (calling `.keys()` on an `int`), so the accessors are not
total and the list is not "the keys of" the term-frequency result. -/
theorem requirements_accessors_counterexample :
    (Project.get_requirements_list
        { id := 1, requirements_tf := .jsonOf (.num 5) } = .error "AttributeError") ∧
    (Project.get_requirements_tf
        { id := 1, requirements_tf := .jsonOf (.num 5) } = .num 5) := by
  exact ⟨rfl, rfl⟩

/-- **C10 amended**: `get_requirements_tf` returns the empty map whenever
the stored text is NULL, empty, or invalid JSON; `get_requirements_list`
returns exactly the keys of `get_requirements_tf` whenever that value is a
JSON object (in particular in all three fallback cases), and returns the
empty list without raising whenever that value is falsy (the documents
`0`, `""`, `false`, `null`, `{}` — the `if requirements_tf` guard takes
the else-branch); only a *truthy* non-object value reaches `.keys()` and
raises `AttributeError`. -/
theorem requirements_accessors_total (p : Project) :
    (p.requirements_tf = .nullCol ∨ p.requirements_tf = .emptyStr ∨
        p.requirements_tf = .invalidJson → p.get_requirements_tf = .obj []) ∧
    (∀ fields, p.get_requirements_tf = .obj fields →
        p.get_requirements_list = .ok (fields.map Prod.fst)) ∧
    (p.get_requirements_tf.truthy = false → p.get_requirements_list = .ok []) ∧
    (p.get_requirements_tf.truthy = true →
      (∀ fields, p.get_requirements_tf ≠ JVal.obj fields) →
      p.get_requirements_list = .error "AttributeError") := by
  refine ⟨?_, ?_, ?_, ?_⟩
  · rintro (h | h | h) <;> simp [Project.get_requirements_tf, h]
  · intro fields h
    unfold Project.get_requirements_list
    rw [h]
    by_cases hf : fields.isEmpty
    · have : fields = [] := by
        cases fields
        · rfl
        · simp [List.isEmpty] at hf
      subst this
      simp [JVal.truthy]
    · simp [JVal.truthy, hf]
  · intro hf
    unfold Project.get_requirements_list
    simp [hf]
  · intro ht hno
    unfold Project.get_requirements_list
    cases hv : p.get_requirements_tf with
    | obj fields => exact absurd hv (hno fields)
    | num n =>
      rw [hv] at ht
      simp [ht]
    | str s =>
      rw [hv] at ht
      simp [ht]
    | boolv b =>
      rw [hv] at ht
      simp [ht]
    | nullv =>
      rw [hv] at ht
      simp [JVal.truthy] at ht

/-- **C10 witness**: the amended theorem applied at a record storing
`{"Python": 2}` (keys returned), a NULL record (empty map), a record
storing the falsy document `0` (empty list, no exception), and a record
storing the truthy non-object `5` (AttributeError). -/
theorem requirements_accessors_total_witness :
    (Project.get_requirements_list
        { id := 2, requirements_tf := .jsonOf (.obj [("Python", 2)]) } =
      .ok ["Python"]) ∧
    (Project.get_requirements_tf { id := 3 } = .obj []) ∧
    (Project.get_requirements_list { id := 4, requirements_tf := .jsonOf (.num 0) } =
      .ok []) ∧
    (Project.get_requirements_list { id := 6, requirements_tf := .jsonOf (.num 5) } =
      .error "AttributeError") := by
  refine ⟨?_, ?_, ?_, ?_⟩
  · exact (requirements_accessors_total
      { id := 2, requirements_tf := .jsonOf (.obj [("Python", 2)]) }).2.1
      [("Python", 2)] rfl
  · exact (requirements_accessors_total { id := 3 }).1 (Or.inl rfl)
  · exact (requirements_accessors_total
      { id := 4, requirements_tf := .jsonOf (.num 0) }).2.2.1 (by decide)
  · exact (requirements_accessors_total
      { id := 6, requirements_tf := .jsonOf (.num 5) }).2.2.2 (by decide)
      (by intro fields h; cases h)

/-! ## Matching Engine (`backend/matching_service.py`)

Lookup tables of `MatchingService` and the per-requirement cascade of
`_match_project`.  Embedding vectors are rational lists; the configured
similarity metric (cosine, or `max(0, 1 - distance/0.3)` over the numpy
Euclidean distance) is abstracted as a function parameter `sim`.  The
OpenAI handler is `none` when no API key is configured; when present it is
abstracted as the partial embedding oracle used on skills missing from the
skills table. -/

def SKILL_SYNONYMS : List (String × List String) :=
  [("deutschkenntnisse", ["deutsch", "deutsche sprache"]),
   ("deutsche sprache", ["deutsch", "deutschkenntnisse"]),
   ("deutsch", ["deutschkenntnisse", "deutsche sprache"]),
   ("englischkenntnisse", ["englisch", "englische sprache"]),
   ("englische sprache", ["englisch", "englischkenntnisse"]),
   ("englisch", ["englischkenntnisse", "englische sprache"])]

def SOFT_SKILLS : List String :=
  ["kommunikation", "teamarbeit", "projektmanagement", "führung", "beratung",
   "präsentation", "moderation", "workshops", "dokumentation", "support",
   "schulung", "coaching", "mentoring", "verhandlung", "konfliktmanagement"]

/-- The exception table maps each pair to the stored value `False`
("Java should not match JavaScript"), exactly as in the source. -/
def HARDCODED_EXCEPTIONS : List ((String × String) × Bool) :=
  [(("java", "javascript"), false),
   (("javascript", "java"), false)]

/-- `_is_synonym`. -/
def is_synonym (skill1 skill2 : String) : Bool :=
  let s1 := skill1.trim.toLower
  let s2 := skill2.trim.toLower
  ((alookup s1 SKILL_SYNONYMS).getD []).contains s2 ||
    ((alookup s2 SKILL_SYNONYMS).getD []).contains s1

/-- `_is_soft_skill`. -/
def is_soft_skill (skill : String) : Bool := SOFT_SKILLS.contains skill.toLower

/-- `_is_hardcoded_exception`: `HARDCODED_EXCEPTIONS.get((s1.lower(), s2.lower()), False)`.
Note this returns the stored dictionary value, which is `False` for every
key in the table. -/
def is_hardcoded_exception (skill1 skill2 : String) : Bool :=
  match HARDCODED_EXCEPTIONS.find?
      (fun e => e.1.1 == skill1.toLower && e.1.2 == skill2.toLower) with
  | some e => e.2
  | none => false

/-- Python `s.strip(c)`: remove every leading and trailing occurrence of `c`. -/
def stripChar (c : Char) (s : String) : String :=
  String.mk (((s.data.dropWhile (· == c)).reverse.dropWhile (· == c)).reverse)

/-- The local `normalize_skill` of `_match_project`:
`s.strip().strip(quote).strip(apostrophe).lower()`. -/
def normalize_skill (s : String) : String :=
  (stripChar (Char.ofNat 39) (stripChar (Char.ofNat 34) s.trim)).toLower

/-- One row of the `skills` table (embedding already parsed from its JSON
column; `[]` models the empty `"[]"` embedding that
`update_skills_idf_factors` writes for new skills). -/
structure SkillRow where
  skill_name : String
  embedding : List ℚ
  idf_factor : Option ℚ
deriving Repr, DecidableEq

/-- `tfidf_service.get_skill_idf_factor`: the stored factor, or `0.0` when
the skill row is missing or its factor is NULL. -/
def get_skill_idf_factor (skills : List SkillRow) (name : String) : ℚ :=
  match skills.find? (fun r => r.skill_name == name) with
  | some row => row.idf_factor.getD 0
  | none => 0

/-- `_get_project_embeddings`: raises (and returns `{}`) when the OpenAI
handler is unavailable; otherwise looks each requirement up in the skills
table, falling back to the embedding oracle, and only keeps truthy
(non-empty) freshly created embeddings.  An existing row's embedding is
kept even when it is empty. -/
def get_project_embeddings (handler : Option (String → Option (List ℚ)))
    (skills : List SkillRow) (reqs : List String) : List (String × List ℚ) :=
  match handler with
  | none => []
  | some h =>
    reqs.foldl (fun acc req =>
      match skills.find? (fun r => r.skill_name == req) with
      | some row => acc ++ [(req, row.embedding)]
      | none =>
        match h req with
        | some emb => if emb.isEmpty then acc else acc ++ [(req, emb)]
        | none => acc) []

/-- `_get_employee_embeddings`: same lookup discipline over the employee's
skill list. -/
def get_employee_embeddings (handler : Option (String → Option (List ℚ)))
    (skills : List SkillRow) (empSkills : List String) : List (String × List ℚ) :=
  match handler with
  | none => []
  | some h =>
    empSkills.foldl (fun acc skill =>
      match skills.find? (fun r => r.skill_name == skill) with
      | some row => acc ++ [(skill, row.embedding)]
      | none =>
        match h skill with
        | some emb => if emb.isEmpty then acc else acc ++ [(skill, emb)]
        | none => acc) []

/-- Rule 4's scan over `employee_embeddings.items()`: skip falsy embeddings,
keep the strictly best similarity (initial best is `0.0` with no skill). -/
def bestEmbeddingMatch (sim : List ℚ → List ℚ → ℚ) (reqEmbedding : List ℚ)
    (empEmb : List (String × List ℚ)) : ℚ × Option String :=
  empEmb.foldl (fun best p =>
    if p.2.isEmpty then best
    else if sim reqEmbedding p.2 > best.1 then (sim reqEmbedding p.2, some p.1)
    else best) (0, none)

/-- Outcome of the per-requirement cascade in `_match_project`. -/
inductive ReqOutcome where
  | skipped
  | matchedExact (emp : String)
  | matchedSynonym (emp : String)
  | matchedEmbedding (emp : String)
  | missing
deriving Repr, DecidableEq

/-- The body of `_match_project`'s requirement loop: skip requirements with
no (or empty) embedding, then exact match, synonym match, soft-skill
exclusion, embedding similarity, each guarded by the hardcoded-exception
check. -/
def matchOneReq (sim : List ℚ → List ℚ → ℚ) (threshold : ℚ)
    (projEmb : List (String × List ℚ)) (empSkills : List String)
    (empEmb : List (String × List ℚ)) (req : String) : ReqOutcome :=
  match alookup req projEmb with
  | none => .skipped
  | some reqEmbedding =>
    if reqEmbedding.isEmpty then .skipped
    else
      match empSkills.find? (fun e => normalize_skill req == normalize_skill e) with
      | some emp =>
        if is_hardcoded_exception req emp then .missing else .matchedExact emp
      | none =>
        match empSkills.find?
            (fun e => is_synonym (normalize_skill req) (normalize_skill e)) with
        | some emp =>
          if is_hardcoded_exception req emp then .missing else .matchedSynonym emp
        | none =>
          if is_soft_skill (normalize_skill req) then .missing
          else
            match (bestEmbeddingMatch sim reqEmbedding empEmb).2 with
            | some emp =>
              if threshold ≤ (bestEmbeddingMatch sim reqEmbedding empEmb).1 then
                if is_hardcoded_exception req emp then .missing
                else .matchedEmbedding emp
              else .missing
            | none => .missing

/-- The project's requirement list as `_match_project` reads it (empty when
the accessor raises; the surrounding `except` then returns `None` anyway). -/
def projReqs (p : Project) : List String :=
  match p.get_requirements_list with
  | .ok l => l
  | .error _ => []

/-- The term-frequency dictionary used by `_match_project`, with the
equal-weights fallback `{req: 1 for req in project_requirements}` when the
stored map is falsy.  (A truthy non-object document would raise in
`get_requirements_list` first, so that branch is unreachable here.) -/
def projRtf (p : Project) : List (String × Int) :=
  match p.get_requirements_tf with
  | .obj fields =>
    if fields.isEmpty then (projReqs p).map (fun r => (r, 1)) else fields
  | _ => (projReqs p).map (fun r => (r, 1))

/-- The TF-IDF weight of one requirement:
`requirements_tf.get(req, 1) * get_skill_idf_factor(req)`. -/
def reqWeight (rtf : List (String × Int)) (skills : List SkillRow) (r : String) : ℚ :=
  (((alookup r rtf).getD 1 : Int) : ℚ) * get_skill_idf_factor skills r

/-- `seen`-set deduplication preserving first-seen order. -/
def dedupPreserve (l : List String) : List String :=
  l.foldl (fun acc s => if acc.contains s then acc else acc ++ [s]) []

/-- The dictionary returned by `_match_project` (the final
`round(x, 2)` display rounding of the percentage is omitted; all other
arithmetic is exact). -/
structure MatchResult where
  project_id : Nat
  match_percentage : ℚ
  matching_skills : List String
  missing_skills : List String
deriving Repr, DecidableEq

/-- One step of `_match_project`'s accumulation loop over
`(weighted_total_score, total_tfidf_weight, matching_skills, missing_skills)`. -/
def matchStep (sim : List ℚ → List ℚ → ℚ) (threshold : ℚ)
    (projEmb : List (String × List ℚ)) (empSkills : List String)
    (empEmb : List (String × List ℚ)) (rtf : List (String × Int))
    (skills : List SkillRow) (st : ℚ × ℚ × List String × List String)
    (req : String) : ℚ × ℚ × List String × List String :=
  let w := reqWeight rtf skills req
  match matchOneReq sim threshold projEmb empSkills empEmb req with
  | .skipped => st
  | .matchedExact _ => (st.1 + 1 * w, st.2.1 + w, st.2.2.1 ++ [req], st.2.2.2)
  | .matchedSynonym _ => (st.1 + (0.95 : ℚ) * w, st.2.1 + w, st.2.2.1 ++ [req], st.2.2.2)
  | .matchedEmbedding _ => (st.1 + 1 * w, st.2.1 + w, st.2.2.1 ++ [req], st.2.2.2)
  | .missing => (st.1, st.2.1 + w, st.2.2.1, st.2.2.2 ++ [req])

/-- `_match_project`: `None` when the requirement list is empty or the
accessor raises; otherwise the accumulated match result with
`match_percentage = score / total * 100` when the total weight is positive
and `0.0` otherwise. -/
def matchProject (sim : List ℚ → List ℚ → ℚ) (threshold : ℚ)
    (handler : Option (String → Option (List ℚ))) (skills : List SkillRow)
    (p : Project) (empSkills : List String) (empEmb : List (String × List ℚ)) :
    Option MatchResult :=
  match p.get_requirements_list with
  | .error _ => none
  | .ok reqs =>
    if reqs.isEmpty then none
    else
      let projEmb := get_project_embeddings handler skills reqs
      let st := reqs.foldl
        (matchStep sim threshold projEmb empSkills empEmb (projRtf p) skills)
        (0, 0, [], [])
      some
        { project_id := p.id
          match_percentage := if 0 < st.2.1 then st.1 / st.2.1 * 100 else 0
          matching_skills := dedupPreserve st.2.2.1
          missing_skills := st.2.2.2 }

/-! ### Score/weight bookkeeping of `_match_project` -/

/-- Whether a requirement reaches the cascade at all (it is `continue`d
over before any weight accumulation when its embedding is missing/empty). -/
def ReqOutcome.counted : ReqOutcome → Bool
  | .skipped => false
  | _ => true

/-- Whether the cascade classified the requirement as matched. -/
def ReqOutcome.isMatch : ReqOutcome → Bool
  | .matchedExact _ => true
  | .matchedSynonym _ => true
  | .matchedEmbedding _ => true
  | _ => false

/-- Whether the cascade classified the requirement as missing. -/
def ReqOutcome.isMissing : ReqOutcome → Bool
  | .missing => true
  | _ => false

/-- Score contributed per unit of TF-IDF weight: `1.0` for exact and
embedding matches, `0.95` for synonym matches, `0` otherwise. -/
def contribution : ReqOutcome → ℚ
  | .matchedExact _ => 1
  | .matchedSynonym _ => (0.95 : ℚ)
  | .matchedEmbedding _ => 1
  | _ => 0

/-- The cascade outcome of one requirement of project `p`. -/
def matchOutcome (sim : List ℚ → List ℚ → ℚ) (threshold : ℚ)
    (handler : Option (String → Option (List ℚ))) (skills : List SkillRow)
    (p : Project) (empSkills : List String) (empEmb : List (String × List ℚ))
    (r : String) : ReqOutcome :=
  matchOneReq sim threshold (get_project_embeddings handler skills (projReqs p))
    empSkills empEmb r

/-- `total_tfidf_weight` accumulated by `_match_project`: the sum of
`tf * idf` over the requirements that are not skipped. -/
def totalTfidfWeight (sim : List ℚ → List ℚ → ℚ) (threshold : ℚ)
    (handler : Option (String → Option (List ℚ))) (skills : List SkillRow)
    (p : Project) (empSkills : List String) (empEmb : List (String × List ℚ)) : ℚ :=
  (((projReqs p).filter
      (fun r => (matchOutcome sim threshold handler skills p empSkills empEmb r).counted)).map
    (reqWeight (projRtf p) skills)).sum

/-- `weighted_total_score` accumulated by `_match_project`. -/
def weightedTotalScore (sim : List ℚ → List ℚ → ℚ) (threshold : ℚ)
    (handler : Option (String → Option (List ℚ))) (skills : List SkillRow)
    (p : Project) (empSkills : List String) (empEmb : List (String × List ℚ)) : ℚ :=
  ((projReqs p).map
    (fun r =>
      contribution (matchOutcome sim threshold handler skills p empSkills empEmb r) *
        reqWeight (projRtf p) skills r)).sum

/-- The total weight the claim expects: `tf * idf` summed over **every**
requirement of the project, skipped or not. -/
def claimTotalWeight (skills : List SkillRow) (p : Project) : ℚ :=
  ((projReqs p).map (reqWeight (projRtf p) skills)).sum

/-- Closed form of the accumulation loop. -/
theorem matchStep_foldl (sim : List ℚ → List ℚ → ℚ) (threshold : ℚ)
    (projEmb : List (String × List ℚ)) (empSkills : List String)
    (empEmb : List (String × List ℚ)) (rtf : List (String × Int))
    (skills : List SkillRow) :
    ∀ (reqs : List String) (s t : ℚ) (ms mi : List String),
      reqs.foldl (matchStep sim threshold projEmb empSkills empEmb rtf skills)
          (s, t, ms, mi) =
        (s + (reqs.map (fun r =>
            contribution (matchOneReq sim threshold projEmb empSkills empEmb r) *
              reqWeight rtf skills r)).sum,
         t + ((reqs.filter (fun r =>
            (matchOneReq sim threshold projEmb empSkills empEmb r).counted)).map
              (reqWeight rtf skills)).sum,
         ms ++ reqs.filter (fun r =>
            (matchOneReq sim threshold projEmb empSkills empEmb r).isMatch),
         mi ++ reqs.filter (fun r =>
            (matchOneReq sim threshold projEmb empSkills empEmb r).isMissing)) := by
  intro reqs
  induction reqs with
  | nil => intro s t ms mi; simp
  | cons r rest ih =>
    intro s t ms mi
    rw [List.foldl_cons]
    cases h : matchOneReq sim threshold projEmb empSkills empEmb r <;>
      simp [matchStep, h, ReqOutcome.counted, ReqOutcome.isMatch, ReqOutcome.isMissing,
        contribution, List.filter_cons, ih, add_assoc]

/-- **C1 amended**: the reported `match_percentage` is
`100 * score / total` (or `0` when `total` is `0`), where `total` sums
`tf(r) * idf(r)` over exactly the requirements whose embedding is
available and non-empty — requirements with no usable embedding are
`continue`d over and contribute to neither sum. -/
theorem match_percentage_weighted (sim : List ℚ → List ℚ → ℚ) (threshold : ℚ)
    (handler : Option (String → Option (List ℚ))) (skills : List SkillRow)
    (p : Project) (empSkills : List String) (empEmb : List (String × List ℚ))
    (res : MatchResult)
    (h : matchProject sim threshold handler skills p empSkills empEmb = some res) :
    res.match_percentage =
      if 0 < totalTfidfWeight sim threshold handler skills p empSkills empEmb then
        weightedTotalScore sim threshold handler skills p empSkills empEmb /
          totalTfidfWeight sim threshold handler skills p empSkills empEmb * 100
      else 0 := by
  unfold matchProject at h
  split at h
  next e heq => exact absurd h (by simp)
  next reqs heq =>
    by_cases hne : reqs.isEmpty
    · rw [if_pos hne] at h; exact absurd h (by simp)
    · rw [if_neg hne] at h
      simp only [matchStep_foldl, zero_add, List.nil_append] at h
      have hres := Option.some.inj h
      have hpr : projReqs p = reqs := by simp [projReqs, heq]
      rw [← hres]
      simp only [totalTfidfWeight, weightedTotalScore, matchOutcome, hpr]

/-- **C1 witness**: the formula theorem applied at a project with two
requirements of which one has an empty stored embedding. -/
theorem match_percentage_weighted_witness :
    (matchProject (fun _ _ => 1) (8/10) (some (fun _ => some [1]))
        [⟨"A", [1], some 1⟩, ⟨"B", [], some 1⟩]
        { id := 5, requirements_tf := .jsonOf (.obj [("A", 1), ("B", 1)]) }
        ["A"] [("A", [1])] =
      some ⟨5, 100, ["A"], []⟩) ∧
    ((⟨5, 100, ["A"], []⟩ : MatchResult).match_percentage =
      if 0 < totalTfidfWeight (fun _ _ => 1) (8/10) (some (fun _ => some [1]))
          [⟨"A", [1], some 1⟩, ⟨"B", [], some 1⟩]
          { id := 5, requirements_tf := .jsonOf (.obj [("A", 1), ("B", 1)]) }
          ["A"] [("A", [1])] then
        weightedTotalScore (fun _ _ => 1) (8/10) (some (fun _ => some [1]))
            [⟨"A", [1], some 1⟩, ⟨"B", [], some 1⟩]
            { id := 5, requirements_tf := .jsonOf (.obj [("A", 1), ("B", 1)]) }
            ["A"] [("A", [1])] /
          totalTfidfWeight (fun _ _ => 1) (8/10) (some (fun _ => some [1]))
            [⟨"A", [1], some 1⟩, ⟨"B", [], some 1⟩]
            { id := 5, requirements_tf := .jsonOf (.obj [("A", 1), ("B", 1)]) }
            ["A"] [("A", [1])] * 100
      else 0) :=
  ⟨by with_unfolding_all decide,
   match_percentage_weighted (fun _ _ => 1) (8/10) (some (fun _ => some [1]))
     [⟨"A", [1], some 1⟩, ⟨"B", [], some 1⟩]
     { id := 5, requirements_tf := .jsonOf (.obj [("A", 1), ("B", 1)]) }
     ["A"] [("A", [1])] ⟨5, 100, ["A"], []⟩ (by with_unfolding_all decide)⟩

/-- **C1 counterexample**: a project requires `A` and `B` with `tf = 1`,
`idf = 1` each, the employee has exactly skill `A`, and `B`'s stored
embedding is empty.  The code reports `100%` because `B` is skipped before
the total is accumulated, whereas the claimed formula (total over *every*
requirement) yields `50%`. -/
theorem match_percentage_total_counterexample :
    ((matchProject (fun _ _ => 1) (8/10) (some (fun _ => some [1]))
        [⟨"A", [1], some 1⟩, ⟨"B", [], some 1⟩]
        { id := 5, requirements_tf := .jsonOf (.obj [("A", 1), ("B", 1)]) }
        ["A"] [("A", [1])]).map MatchResult.match_percentage = some 100) ∧
    (claimTotalWeight [⟨"A", [1], some 1⟩, ⟨"B", [], some 1⟩]
        { id := 5, requirements_tf := .jsonOf (.obj [("A", 1), ("B", 1)]) } = 2) ∧
    (weightedTotalScore (fun _ _ => 1) (8/10) (some (fun _ => some [1]))
        [⟨"A", [1], some 1⟩, ⟨"B", [], some 1⟩]
        { id := 5, requirements_tf := .jsonOf (.obj [("A", 1), ("B", 1)]) }
        ["A"] [("A", [1])] = 1) ∧
    (100 * (1 : ℚ) / 2 = 50) ∧ ((100 : ℚ) ≠ 50) := by
  exact ⟨by with_unfolding_all decide, by with_unfolding_all decide, by with_unfolding_all decide, by with_unfolding_all decide, by with_unfolding_all decide⟩

/-- **C3**: with the OpenAI handler unavailable, `_get_project_embeddings`
returns `{}`, so every requirement is skipped before the exact and synonym
rules run: the employee's own skill `"Python"` is neither matched nor
reported missing and the percentage is `0`.  With the handler available the
identical input matches `"Python"` exactly at `100%`. -/
theorem embedding_unavailable_skips_all_rules :
    (matchProject (fun _ _ => 1) (8/10) none [⟨"Python", [1], some 1⟩]
        { id := 7, requirements_tf := .jsonOf (.obj [("Python", 1)]) }
        ["Python"]
        (get_employee_embeddings none [⟨"Python", [1], some 1⟩] ["Python"]) =
      some ⟨7, 0, [], []⟩) ∧
    (matchProject (fun _ _ => 1) (8/10) (some (fun _ => some [1]))
        [⟨"Python", [1], some 1⟩]
        { id := 7, requirements_tf := .jsonOf (.obj [("Python", 1)]) }
        ["Python"]
        (get_employee_embeddings (some (fun _ => some [1]))
          [⟨"Python", [1], some 1⟩] ["Python"]) =
      some ⟨7, 100, ["Python"], []⟩) := by
  exact ⟨by with_unfolding_all decide, by with_unfolding_all decide⟩

/-- **C4**: the pair `("java", "javascript")` is a key of
`HARDCODED_EXCEPTIONS`, yet `_is_hardcoded_exception` returns the stored
value `False`, so the override never fires: requirement `"Java"` against
employee skill `"JavaScript"` is accepted by the embedding rule and ends up
in `matching_skills`, not reverted to missing. -/
theorem java_javascript_exception_inert :
    ((HARDCODED_EXCEPTIONS.find?
        (fun e => e.1.1 == "java" && e.1.2 == "javascript")).isSome = true) ∧
    (is_hardcoded_exception "Java" "JavaScript" = false) ∧
    (matchOneReq (fun _ _ => 1) (8/10) [("Java", [1])] ["JavaScript"]
        [("JavaScript", [1])] "Java" = .matchedEmbedding "JavaScript") ∧
    ((matchProject (fun _ _ => 1) (8/10) (some (fun _ => some [1]))
        [⟨"Java", [1], some 1⟩]
        { id := 9, requirements_tf := .jsonOf (.obj [("Java", 1)]) }
        ["JavaScript"] [("JavaScript", [1])]).map MatchResult.matching_skills =
      some ["Java"]) := by
  exact ⟨by with_unfolding_all decide, by with_unfolding_all decide, by with_unfolding_all decide, by with_unfolding_all decide⟩

/-! ## Relevance Index (`backend/tfidf_service.calculate_idf_factors`)

`math.log` is abstracted as the parameter `log : ℚ → ℝ` applied to the
exact ratio `total_documents / doc_count`. -/

/-- The corpus `calculate_idf_factors` iterates over:
`db.query(Project).filter(Project.requirements_tf.isnot(None))` —
projects whose stored text is non-NULL, however it parses. -/
def projectsWithReqs (c : List Project) : List Project :=
  c.filter (fun p => decide (p.requirements_tf ≠ ReqText.nullCol))

/-- `skill_document_counts[skill] = skill_document_counts.get(skill, 0) + 1`. -/
def bump (acc : List (String × Nat)) (s : String) : List (String × Nat) :=
  if (alookup s acc).isSome then
    acc.map (fun e => if e.1 = s then (e.1, e.2 + 1) else e)
  else acc ++ [(s, 1)]

/-- The document-count loop of `calculate_idf_factors`: for each project
with a truthy parsed map, bump each of its keys; `.keys()` on a truthy
non-dict raises and propagates. -/
def skillCountsGo : List Project → List (String × Nat) → Except String (List (String × Nat))
  | [], acc => .ok acc
  | p :: rest, acc =>
    if p.get_requirements_tf.truthy then
      match p.get_requirements_tf with
      | .obj fields => skillCountsGo rest ((fields.map Prod.fst).foldl bump acc)
      | _ => .error "AttributeError"
    else skillCountsGo rest acc

def skillDocumentCounts (c : List Project) : Except String (List (String × Nat)) :=
  skillCountsGo (projectsWithReqs c) []

/-- `calculate_idf_factors`: empty result when no project has a non-NULL
requirements column, otherwise one entry `log(total_documents / doc_count)`
per counted skill (the `doc_count > 0` guard of the source is kept). -/
def calculate_idf_factors (log : ℚ → ℝ) (c : List Project) :
    Except String (List (String × ℝ)) :=
  let total := (projectsWithReqs c).length
  if total = 0 then .ok []
  else
    match skillDocumentCounts c with
    | .error e => .error e
    | .ok counts =>
      .ok ((counts.filter (fun e => decide (0 < e.2))).map
        (fun e => (e.1, log ((total : ℚ) / (e.2 : ℚ)))))

/-- Spec-side definition, following the claim's words: projects "that have
any requirements" (a non-empty parsed requirement map). -/
def totalDocsWithAnyRequirements (c : List Project) : Nat :=
  (c.filter (fun p =>
    match p.get_requirements_tf with
    | .obj fields => !fields.isEmpty
    | _ => false)).length

/-- Spec-side document frequency: distinct projects whose requirement map
contains the skill. -/
def docFrequency (c : List Project) (s : String) : Nat :=
  (c.filter (fun p =>
    match p.get_requirements_tf with
    | .obj fields => (fields.map Prod.fst).contains s
    | _ => false)).length

/-- The stream of requirement keys contributed by the counting loop. -/
def docKeyFn (p : Project) : List String :=
  match p.get_requirements_tf with
  | .obj fields => if fields.isEmpty then [] else fields.map Prod.fst
  | _ => []

theorem alookup_bump (acc : List (String × Nat)) (k0 s : String) :
    alookup s (bump acc k0) =
      if s = k0 then some ((alookup s acc).getD 0 + 1) else alookup s acc := by
  unfold bump
  by_cases hs : (alookup k0 acc).isSome
  · rw [if_pos hs, alookup_mapUpdate acc k0 s (· + 1)]
    by_cases hk : s = k0
    · rw [if_pos hk, if_pos hk, hk]
      obtain ⟨a, ha⟩ := Option.isSome_iff_exists.mp hs
      rw [ha]
      rfl
    · rw [if_neg hk, if_neg hk]
  · rw [if_neg hs, alookup_append_single]
    have hnone : alookup k0 acc = none := Option.not_isSome_iff_eq_none.mp hs
    by_cases hk : s = k0
    · rw [if_pos hk, hk, hnone]
      simp
    · rw [if_neg hk]
      cases h : alookup s acc <;> simp [h, hk]

theorem alookup_foldl_bump (ks : List String) (acc : List (String × Nat)) (s : String) :
    alookup s (ks.foldl bump acc) =
      if ks.count s = 0 then alookup s acc
      else some ((alookup s acc).getD 0 + ks.count s) := by
  induction ks generalizing acc with
  | nil => simp
  | cons k t ih =>
    rw [List.foldl_cons, ih (bump acc k)]
    by_cases hsk : s = k
    · have hc : (k :: t).count s = t.count s + 1 := by
        simp [List.count_cons, hsk]
      rw [hc]
      by_cases ht : t.count s = 0
      · rw [ht, if_pos rfl, if_neg (by omega), alookup_bump, if_pos hsk]
      · rw [if_neg ht, if_neg (by omega), alookup_bump, if_pos hsk]
        have : ((some ((alookup s acc).getD 0 + 1)).getD 0) =
            (alookup s acc).getD 0 + 1 := rfl
        rw [this]
        congr 1
        omega
    · have hc : (k :: t).count s = t.count s := by
        simp [List.count_cons, hsk]
      rw [hc, alookup_bump, if_neg hsk]

theorem foldl_bump_pos (ks : List String) (acc : List (String × Nat))
    (hacc : ∀ e ∈ acc, 0 < e.2) : ∀ e ∈ ks.foldl bump acc, 0 < e.2 := by
  induction ks generalizing acc with
  | nil => simpa using hacc
  | cons k t ih =>
    rw [List.foldl_cons]
    refine ih (bump acc k) ?_
    intro e he
    unfold bump at he
    by_cases hs : (alookup k acc).isSome
    · rw [if_pos hs] at he
      obtain ⟨a, ha, rfl⟩ := List.mem_map.mp he
      by_cases h : a.1 = k
      · simp only [if_pos h]
        exact Nat.succ_pos _
      · simp only [if_neg h]
        exact hacc a ha
    · rw [if_neg hs] at he
      rcases List.mem_append.mp he with h | h
      · exact hacc e h
      · simp only [List.mem_singleton] at h
        subst h
        exact Nat.one_pos

theorem skillCountsGo_ok (l : List Project) (acc : List (String × Nat))
    (hobj : ∀ p ∈ l, ∃ f, p.get_requirements_tf = .obj f) :
    skillCountsGo l acc = .ok ((l.flatMap docKeyFn).foldl bump acc) := by
  induction l generalizing acc with
  | nil => simp [skillCountsGo]
  | cons p rest ih =>
    obtain ⟨f, hf⟩ := hobj p (by simp)
    have hrest : ∀ q ∈ rest, ∃ g, q.get_requirements_tf = .obj g :=
      fun q hq => hobj q (by simp [hq])
    rw [List.flatMap_cons, List.foldl_append]
    by_cases he : f.isEmpty
    · have hkeys : docKeyFn p = [] := by simp [docKeyFn, hf, he]
      have htruthy : (JVal.obj f).truthy = false := by
        simp [JVal.truthy, he]
      rw [hkeys]
      simp only [skillCountsGo, hf, htruthy, Bool.false_eq_true, if_false,
        List.foldl_nil]
      exact ih acc hrest
    · have hkeys : docKeyFn p = f.map Prod.fst := by simp [docKeyFn, hf, he]
      have htruthy : (JVal.obj f).truthy = true := by
        simp [JVal.truthy, he]
      rw [hkeys]
      simp only [skillCountsGo, hf, htruthy, if_true]
      exact ih _ hrest

theorem count_docKeys (c : List Project) (s : String)
    (hnd : ∀ p ∈ c, ∀ f, p.get_requirements_tf = .obj f → (f.map Prod.fst).Nodup) :
    ((projectsWithReqs c).flatMap docKeyFn).count s = docFrequency c s := by
  induction c with
  | nil => simp [projectsWithReqs, docFrequency]
  | cons p rest ih =>
    have hndrest : ∀ q ∈ rest, ∀ f, q.get_requirements_tf = .obj f →
        (f.map Prod.fst).Nodup :=
      fun q hq => hnd q (by simp [hq])
    have ihr := ih hndrest
    have hcount : ∀ (p' : Project), p' ∈ [p] → True := fun _ _ => trivial
    clear hcount
    by_cases hnull : p.requirements_tf = ReqText.nullCol
    · have h1 : projectsWithReqs (p :: rest) = projectsWithReqs rest := by
        simp [projectsWithReqs, List.filter_cons, hnull]
      have h2 : docFrequency (p :: rest) s = docFrequency rest s := by
        have : p.get_requirements_tf = .obj [] := by
          simp [Project.get_requirements_tf, hnull]
        simp [docFrequency, List.filter_cons, this]
      rw [h1, h2, ihr]
    · have h1 : projectsWithReqs (p :: rest) = p :: projectsWithReqs rest := by
        simp [projectsWithReqs, List.filter_cons, hnull]
      rw [h1, List.flatMap_cons, List.count_append, ihr]
      by_cases hmem : ∃ f, p.get_requirements_tf = .obj f ∧
          s ∈ f.map Prod.fst
      · obtain ⟨f, hf, hs⟩ := hmem
        have hone : (docKeyFn p).count s = 1 := by
          have hne : f.isEmpty = false := by
            cases f
            · simp at hs
            · rfl
          have : docKeyFn p = f.map Prod.fst := by simp [docKeyFn, hf, hne]
          rw [this]
          exact List.count_eq_one_of_mem (hnd p (by simp) f hf) hs
        have hfreq : docFrequency (p :: rest) s = docFrequency rest s + 1 := by
          simp [docFrequency, List.filter_cons, hf, List.elem_eq_mem, hs,
            Nat.add_comm]
        rw [hone, hfreq]
        omega
      · push_neg at hmem
        have hzero : (docKeyFn p).count s = 0 := by
          unfold docKeyFn
          cases hv : p.get_requirements_tf with
          | obj f =>
            by_cases he : f.isEmpty
            · simp [he]
            · have := hmem f hv
              simp only [he, if_false]
              exact List.count_eq_zero_of_not_mem this
          | num n => simp
          | str t => simp
          | boolv b => simp
          | nullv => simp
        have hfreq : docFrequency (p :: rest) s = docFrequency rest s := by
          unfold docFrequency
          rw [List.filter_cons]
          cases hv : p.get_requirements_tf with
          | obj f =>
            have := hmem f hv
            simp [List.elem_eq_mem, this]
          | num n => simp
          | str t => simp
          | boolv b => simp
          | nullv => simp
        rw [hzero, hfreq]
        omega

theorem alookup_filter_pos (l : List (String × Nat)) (hpos : ∀ e ∈ l, 0 < e.2) :
    l.filter (fun e => decide (0 < e.2)) = l :=
  List.filter_eq_self.mpr (fun e he => by simpa using hpos e he)

theorem alookup_mapValues {β γ : Type} (h : β → γ) (l : List (String × β)) (s : String) :
    alookup s (l.map (fun e => (e.1, h e.2))) = (alookup s l).map h := by
  induction l with
  | nil => simp [alookup]
  | cons e t ih =>
    by_cases hk : s = e.1 <;> simp [alookup, hk, ih]

/-- **C7 amended**: on a corpus whose stored requirement documents all
parse to JSON objects with distinct keys, `calculate_idf_factors` succeeds
and produces exactly one entry per skill with document frequency ≥ 1,
whose value is `log(total / docFrequency(skill))` — where `total` counts
the projects with a **non-NULL** requirements column (including those whose
parsed map is empty), not only those with any requirements.  No entry is
produced for a skill with document frequency 0. -/
theorem calculate_idf_factors_characterization (log : ℚ → ℝ) (c : List Project)
    (hobj : ∀ p ∈ c, ∃ f, p.get_requirements_tf = .obj f)
    (hnd : ∀ p ∈ c, ∀ f, p.get_requirements_tf = .obj f → (f.map Prod.fst).Nodup) :
    ∃ entries, calculate_idf_factors log c = .ok entries ∧
      ∀ s, alookup s entries =
        if 0 < docFrequency c s then
          some (log (((projectsWithReqs c).length : ℚ) / (docFrequency c s : ℚ)))
        else none := by
  have hobj' : ∀ p ∈ projectsWithReqs c, ∃ f, p.get_requirements_tf = .obj f :=
    fun p hp => hobj p (List.mem_of_mem_filter hp)
  have hcounts : skillDocumentCounts c =
      .ok (((projectsWithReqs c).flatMap docKeyFn).foldl bump []) :=
    skillCountsGo_ok (projectsWithReqs c) [] hobj'
  set counts := ((projectsWithReqs c).flatMap docKeyFn).foldl bump [] with hc
  have hlookup : ∀ s, alookup s counts =
      if docFrequency c s = 0 then none else some (docFrequency c s) := by
    intro s
    rw [hc, alookup_foldl_bump, count_docKeys c s hnd]
    by_cases h : docFrequency c s = 0
    · simp [h, alookup]
    · simp [h, alookup]
  have hpos : ∀ e ∈ counts, 0 < e.2 :=
    foldl_bump_pos _ [] (by intro e he; simp at he)
  by_cases htot : (projectsWithReqs c).length = 0
  · refine ⟨[], ?_, ?_⟩
    · unfold calculate_idf_factors
      rw [if_pos htot]
    · intro s
      have hempty : projectsWithReqs c = [] := List.length_eq_zero.mp htot
      have : docFrequency c s = 0 := by
        have := hlookup s
        by_cases h : docFrequency c s = 0
        · exact h
        · exfalso
          rw [if_neg h] at this
          rw [hc, hempty] at this
          simp [alookup] at this
      simp [this, alookup]
  · refine ⟨(counts.filter (fun e => decide (0 < e.2))).map
      (fun e => (e.1, log (((projectsWithReqs c).length : ℚ) / (e.2 : ℚ)))), ?_, ?_⟩
    · unfold calculate_idf_factors
      rw [if_neg htot, hcounts]
    · intro s
      rw [alookup_filter_pos counts hpos,
        alookup_mapValues
          (fun (n : Nat) => log (((projectsWithReqs c).length : ℚ) / (n : ℚ)))
          counts s, hlookup s]
      by_cases h : docFrequency c s = 0
      · simp [h]
      · have : 0 < docFrequency c s := Nat.pos_of_ne_zero h
        simp [h, this]

/-- **C7 witness**: the characterization applied to a two-project corpus
(`{"A":1, "B":1}` and `{"A":2}`): `idf(A) = log(2/2)`, `idf(B) = log(2/1)`,
and the unseen skill `C` has no entry. -/
theorem calculate_idf_factors_characterization_witness :
    (calculate_idf_factors (fun q => Real.log (q : ℝ))
      [{ id := 1, requirements_tf := .jsonOf (.obj [("A", 1), ("B", 1)]) },
       { id := 2, requirements_tf := .jsonOf (.obj [("A", 2)]) }]).isOk = true ∧
    (docFrequency
      [{ id := 1, requirements_tf := .jsonOf (.obj [("A", 1), ("B", 1)]) },
       { id := 2, requirements_tf := .jsonOf (.obj [("A", 2)]) }] "A" = 2) := by
  constructor
  · obtain ⟨entries, he, -⟩ :=
      calculate_idf_factors_characterization (fun q => Real.log (q : ℝ))
        [{ id := 1, requirements_tf := .jsonOf (.obj [("A", 1), ("B", 1)]) },
         { id := 2, requirements_tf := .jsonOf (.obj [("A", 2)]) }]
        (by intro p hp
            simp only [List.mem_cons, List.mem_singleton] at hp
            rcases hp with rfl | rfl | h
            · exact ⟨[("A", 1), ("B", 1)], rfl⟩
            · exact ⟨[("A", 2)], rfl⟩
            · simp at h)
        (by intro p hp f hf
            simp only [List.mem_cons, List.mem_singleton] at hp
            rcases hp with rfl | rfl | h
            · cases hf; decide
            · cases hf; decide
            · simp at h)
    rw [he]
    rfl
  · decide

/-- **C7 counterexample**: a corpus of one project with requirement map
`{"A": 1}` and one project whose stored text is the non-NULL empty object
`{}`.  The code counts both projects in `total_documents` and reports
`idf(A) = ln 2`, while the claim's `totalDocsWithAnyRequirements` is `1`,
which would give `ln(1/1) = 0 ≠ ln 2`. -/
theorem idf_total_counterexample :
    (calculate_idf_factors (fun q => Real.log (q : ℝ))
        [{ id := 1, requirements_tf := .jsonOf (.obj [("A", 1)]) },
         { id := 2, requirements_tf := .jsonOf (.obj []) }] =
      .ok [("A", Real.log ((2 : ℚ) / (1 : ℚ) : ℝ))]) ∧
    (totalDocsWithAnyRequirements
        [{ id := 1, requirements_tf := .jsonOf (.obj [("A", 1)]) },
         { id := 2, requirements_tf := .jsonOf (.obj []) }] = 1) ∧
    (docFrequency
        [{ id := 1, requirements_tf := .jsonOf (.obj [("A", 1)]) },
         { id := 2, requirements_tf := .jsonOf (.obj []) }] "A" = 1) ∧
    (Real.log ((2 : ℚ) / (1 : ℚ) : ℝ) ≠ Real.log ((1 : ℚ) / (1 : ℚ) : ℝ)) := by
  refine ⟨?_, by decide, by decide, ?_⟩
  · have hcounts : skillDocumentCounts
        [{ id := 1, requirements_tf := .jsonOf (.obj [("A", 1)]) },
         { id := 2, requirements_tf := .jsonOf (.obj []) }] = .ok [("A", 1)] := by
      rfl
    have hlen : (projectsWithReqs
        [{ id := 1, requirements_tf := .jsonOf (.obj [("A", 1)]) },
         { id := 2, requirements_tf := .jsonOf (.obj []) }]).length = 2 := by rfl
    simp only [calculate_idf_factors, hcounts, hlen]
    norm_num
  · have h2 : Real.log ((2 : ℚ) / (1 : ℚ) : ℝ) = Real.log 2 := by norm_num
    have h1 : Real.log ((1 : ℚ) / (1 : ℚ) : ℝ) = 0 := by norm_num
    rw [h2, h1]
    exact ne_of_gt (Real.log_pos (by norm_num))

/-! ## Deduplication Engine (`backend/deduplication_service.py`) -/

/-- Python truthiness of a nullable string column. -/
def truthyStr : Option String → Bool
  | none => false
  | some s => !s.isEmpty

/-- `_are_projects_duplicates`: four criteria, any one sufficing. -/
def are_projects_duplicates (p q : Project) : Bool :=
  (truthyStr p.project_id && truthyStr q.project_id &&
    ((p.project_id.getD "").trim == (q.project_id.getD "").trim)) ||
  (truthyStr p.url && truthyStr q.url &&
    ((p.url.getD "").trim == (q.url.getD "").trim)) ||
  (truthyStr p.title && truthyStr q.title &&
    truthyStr p.tenderer && truthyStr q.tenderer &&
    ((p.title.getD "").trim.toLower == (q.title.getD "").trim.toLower) &&
    ((p.tenderer.getD "").trim.toLower == (q.tenderer.getD "").trim.toLower)) ||
  (truthyStr p.title && truthyStr q.title &&
    truthyStr p.location && truthyStr q.location &&
    truthyStr p.start_date && truthyStr q.start_date &&
    ((p.title.getD "").trim.toLower == (q.title.getD "").trim.toLower) &&
    ((p.location.getD "").trim.toLower == (q.location.getD "").trim.toLower) &&
    ((p.start_date.getD "").trim == (q.start_date.getD "").trim))

/-- The grouping loop of `find_duplicate_projects` over the date-sorted
project list: skip projects already marked processed, collect each
not-yet-processed project's duplicates among the subsequent projects, and
mark the group's ids processed. -/
def dedupGo : List Project → List Nat → List (Project × List Project)
  | [], _ => []
  | p :: rest, processed =>
    if p.id ∈ processed then dedupGo rest processed
    else if (rest.filter (fun q => are_projects_duplicates p q)).isEmpty then
      dedupGo rest processed
    else
      (p, rest.filter (fun q => are_projects_duplicates p q)) ::
        dedupGo rest
          (p.id :: (rest.filter (fun q => are_projects_duplicates p q)).map Project.id
            ++ processed)

def find_duplicate_projects (l : List Project) : List (Project × List Project) :=
  dedupGo l []

/-- Ids deleted by `remove_duplicate_projects`: every member of every
group's duplicate list (canonicals are kept). -/
def removedIdsFrom (groups : List (Project × List Project)) : List Nat :=
  groups.flatMap (fun g => g.2.map Project.id)

def removedIds (l : List Project) : List Nat :=
  removedIdsFrom (find_duplicate_projects l)

/-- The corpus left after `run_deduplication` deletes the duplicates. -/
def survivors (l : List Project) : List Project :=
  l.filter (fun p => decide (p.id ∉ removedIds l))

/-- `total_removed` reported by `remove_duplicate_projects`. -/
def total_removed (l : List Project) : Nat :=
  ((find_duplicate_projects l).map (fun g => g.2.length)).sum

theorem are_projects_duplicates_symm {p q : Project}
    (h : are_projects_duplicates p q = true) :
    are_projects_duplicates q p = true := by
  simp only [are_projects_duplicates, Bool.or_eq_true, Bool.and_eq_true,
    beq_iff_eq] at h ⊢
  rcases h with ((⟨⟨h1, h2⟩, h3⟩ | ⟨⟨h1, h2⟩, h3⟩) |
      ⟨⟨⟨⟨⟨h1, h2⟩, h3⟩, h4⟩, h5⟩, h6⟩) |
    ⟨⟨⟨⟨⟨⟨⟨⟨h1, h2⟩, h3⟩, h4⟩, h5⟩, h6⟩, h7⟩, h8⟩, h9⟩
  · exact Or.inl (Or.inl (Or.inl ⟨⟨h2, h1⟩, h3.symm⟩))
  · exact Or.inl (Or.inl (Or.inr ⟨⟨h2, h1⟩, h3.symm⟩))
  · exact Or.inl (Or.inr ⟨⟨⟨⟨⟨h2, h1⟩, h4⟩, h3⟩, h5.symm⟩, h6.symm⟩)
  · exact Or.inr ⟨⟨⟨⟨⟨⟨⟨⟨h2, h1⟩, h4⟩, h3⟩, h6⟩, h5⟩, h7.symm⟩, h8.symm⟩, h9.symm⟩

/-- Core invariant: two projects that both survive a pass (and whose ids
were not pre-marked processed) are never duplicates of one another, because
the earlier one's group scan covered the later one. -/
theorem dedupGo_separates (l : List Project) :
    ∀ (proc : List Nat), (l.map Project.id).Nodup →
      ∀ a b, [a, b].Sublist l → a.id ∉ proc →
        a.id ∉ removedIdsFrom (dedupGo l proc) →
        b.id ∉ removedIdsFrom (dedupGo l proc) →
        are_projects_duplicates a b = false := by
  induction l with
  | nil =>
    intro proc _ a b hs
    exact absurd hs (by simp)
  | cons p rest ih =>
    intro proc hnd a b hs ha hra hrb
    have hndr : (rest.map Project.id).Nodup := (List.nodup_cons.mp (by simpa using hnd)).2
    by_cases hp : p.id ∈ proc
    · have heq : dedupGo (p :: rest) proc = dedupGo rest proc := by
        simp only [dedupGo, if_pos hp]
      rw [heq] at hra hrb
      cases hs with
      | cons x h => exact ih proc hndr a b h ha hra hrb
      | cons₂ x h => exact absurd hp ha
    · by_cases hge : (rest.filter (fun q => are_projects_duplicates p q)).isEmpty
      · have heq : dedupGo (p :: rest) proc = dedupGo rest proc := by
          simp only [dedupGo, if_neg hp, if_pos hge]
        rw [heq] at hra hrb
        cases hs with
        | cons x h => exact ih proc hndr a b h ha hra hrb
        | cons₂ x h =>
          have hb : b ∈ rest := List.singleton_sublist.mp h
          have hnil : rest.filter (fun q => are_projects_duplicates p q) = [] := by
            simpa using hge
          have := List.filter_eq_nil_iff.mp hnil b hb
          simpa using this
      · have heq : dedupGo (p :: rest) proc =
            (p, rest.filter (fun q => are_projects_duplicates p q)) ::
              dedupGo rest
                (p.id ::
                  (rest.filter (fun q => are_projects_duplicates p q)).map Project.id
                  ++ proc) := by
          simp only [dedupGo, if_neg hp, if_neg hge]
        have hrem : removedIdsFrom (dedupGo (p :: rest) proc) =
            (rest.filter (fun q => are_projects_duplicates p q)).map Project.id ++
              removedIdsFrom (dedupGo rest
                (p.id ::
                  (rest.filter (fun q => are_projects_duplicates p q)).map Project.id
                  ++ proc)) := by
          rw [heq]
          simp [removedIdsFrom]
        rw [hrem] at hra hrb
        have hra1 : a.id ∉
            (rest.filter (fun q => are_projects_duplicates p q)).map Project.id :=
          fun hm => hra (List.mem_append.mpr (Or.inl hm))
        have hra2 : a.id ∉ removedIdsFrom (dedupGo rest
            (p.id ::
              (rest.filter (fun q => are_projects_duplicates p q)).map Project.id
              ++ proc)) :=
          fun hm => hra (List.mem_append.mpr (Or.inr hm))
        have hrb1 : b.id ∉
            (rest.filter (fun q => are_projects_duplicates p q)).map Project.id :=
          fun hm => hrb (List.mem_append.mpr (Or.inl hm))
        have hrb2 : b.id ∉ removedIdsFrom (dedupGo rest
            (p.id ::
              (rest.filter (fun q => are_projects_duplicates p q)).map Project.id
              ++ proc)) :=
          fun hm => hrb (List.mem_append.mpr (Or.inr hm))
        cases hs with
        | cons₂ x h =>
          have hb : b ∈ rest := List.singleton_sublist.mp h
          cases hab : are_projects_duplicates p b with
          | false => rfl
          | true =>
            have hbg : b ∈ rest.filter (fun q => are_projects_duplicates p q) :=
              List.mem_filter.mpr ⟨hb, hab⟩
            exact absurd (List.mem_map.mpr ⟨b, hbg, rfl⟩) hrb1
        | cons x h =>
          have hamem : a ∈ rest := h.subset (by simp)
          have haid : a.id ≠ p.id := by
            intro hEq
            have hmem : p.id ∈ rest.map Project.id :=
              List.mem_map.mpr ⟨a, hamem, hEq⟩
            exact (List.nodup_cons.mp (by simpa using hnd)).1 hmem
          have ha' : a.id ∉
              (p.id ::
                (rest.filter (fun q => are_projects_duplicates p q)).map Project.id
                ++ proc) := by
            intro hm
            rcases List.mem_cons.mp hm with h1 | h2
            · exact haid h1
            · rcases List.mem_append.mp h2 with h3 | h4
              · exact hra1 h3
              · exact ha h4
          exact ih _ hndr a b h ha' hra2 hrb2

/-- No two distinct survivors of a pass are duplicates (in survivor order). -/
theorem survivors_pairwise (l : List Project) (hnd : (l.map Project.id).Nodup) :
    List.Pairwise (fun a b => are_projects_duplicates a b = false) (survivors l) := by
  rw [List.pairwise_iff_forall_sublist]
  intro a b hs
  have hsl : [a, b].Sublist l := hs.trans (List.filter_sublist l)
  have ha : a ∈ survivors l := hs.subset (by simp)
  have hb : b ∈ survivors l := hs.subset (by simp)
  have ha' : a.id ∉ removedIds l := by
    have := (List.mem_filter.mp ha).2
    simpa using this
  have hb' : b.id ∉ removedIds l := by
    have := (List.mem_filter.mp hb).2
    simpa using this
  exact dedupGo_separates l [] hnd a b hsl (by simp) ha' hb'

/-- On a pairwise-duplicate-free corpus the grouping pass finds nothing. -/
theorem dedupGo_of_pairwise (m : List Project) :
    List.Pairwise (fun a b => are_projects_duplicates a b = false) m →
      ∀ proc, dedupGo m proc = [] := by
  induction m with
  | nil => intro _ _; rfl
  | cons p rest ih =>
    intro h proc
    obtain ⟨hhead, htail⟩ := List.pairwise_cons.mp h
    have hfil : rest.filter (fun q => are_projects_duplicates p q) = [] :=
      List.filter_eq_nil_iff.mpr (fun q hq => by simp [hhead q hq])
    by_cases hp : p.id ∈ proc
    · simp only [dedupGo, if_pos hp]
      exact ih htail proc
    · simp only [dedupGo, if_neg hp, hfil]
      exact ih htail proc

/-- **C6**: immediately re-running the Deduplication Engine on the corpus
left by a first run (in any order the database returns it) finds no
duplicate groups and removes zero projects.  Ids are assumed unique (they
are the primary key). -/
theorem dedup_idempotent (l : List Project) (hnd : (l.map Project.id).Nodup)
    (m : List Project) (hm : m.Perm (survivors l)) :
    find_duplicate_projects m = [] ∧ total_removed m = 0 := by
  have hsym : Symmetric (fun a b : Project => are_projects_duplicates a b = false) := by
    intro a b hab
    cases h : are_projects_duplicates b a with
    | false => rfl
    | true => exact absurd (are_projects_duplicates_symm h) (by simp [hab])
  have hpw : List.Pairwise (fun a b => are_projects_duplicates a b = false) m :=
    (hm.pairwise_iff (fun hab => hsym hab)).mpr (survivors_pairwise l hnd)
  have hgo := dedupGo_of_pairwise m hpw []
  refine ⟨hgo, ?_⟩
  unfold total_removed
  rw [show find_duplicate_projects m = dedupGo m [] from rfl, hgo]
  rfl

/-- **C6 witness**: a two-project corpus with a URL duplicate: the first
run removes one project, and the theorem applied to the surviving corpus
shows the second run removes zero. -/
theorem dedup_idempotent_witness :
    (total_removed
      [{ id := 1, url := some "https://x/p", title := some "T" },
       { id := 2, url := some "https://x/p", title := some "U" }] = 1) ∧
    (find_duplicate_projects (survivors
      [{ id := 1, url := some "https://x/p", title := some "T" },
       { id := 2, url := some "https://x/p", title := some "U" }]) = []) ∧
    (total_removed (survivors
      [{ id := 1, url := some "https://x/p", title := some "T" },
       { id := 2, url := some "https://x/p", title := some "U" }]) = 0) :=
  ⟨by with_unfolding_all decide,
   (dedup_idempotent
     [{ id := 1, url := some "https://x/p", title := some "T" },
      { id := 2, url := some "https://x/p", title := some "U" }]
     (by decide) _ (List.Perm.refl _)).1,
   (dedup_idempotent
     [{ id := 1, url := some "https://x/p", title := some "T" },
      { id := 2, url := some "https://x/p", title := some "U" }]
     (by decide) _ (List.Perm.refl _)).2⟩

/-! ## Scan Orchestrator card/date rules (`backend/web_scraper.py`)

Dates are integer day numbers (already normalized to midnight); a card's
`release_date` is `none` when the cheap fields have no date or it cannot be
parsed — both cases make the date filters permissive in the source. -/

/-- `_get_time_range_date`: `cutoff = today - time_range` days. -/
def time_range_cutoff (today time_range : Int) : Int := today - time_range

/-- `_is_within_time_range`: missing/unparseable dates are included;
otherwise the date must be on or after the cutoff. -/
def is_within_time_range (date : Option Int) (today time_range : Int) : Bool :=
  match date with
  | none => true
  | some d => decide (time_range_cutoff today time_range ≤ d)

/-- `_is_on_cutoff_date` (defined in the source but never called). -/
def is_on_cutoff_date (date : Option Int) (today time_range : Int) : Bool :=
  match date with
  | none => false
  | some d => decide (d = time_range_cutoff today time_range)

/-- `_is_significantly_outside_range`: date before
`cutoff - time_range` (defined in the source but never called). -/
def is_significantly_outside_range (date : Option Int) (today time_range : Int) : Bool :=
  match date with
  | none => false
  | some d => decide (d < time_range_cutoff today time_range - time_range)

/-- One listing card as seen by the card loop of `scan_website_stream`:
its cheap-field URL, parsed release date, and the `_is_top_project` flag. -/
structure Card where
  url : Option String := none
  release_date : Option Int := none
  isTop : Bool := false
deriving Repr, DecidableEq

/-- The existing-record short-circuit: the card's URL is present in the
`existing_project_data` snapshot. -/
def cardSkipped (existing : List String) (c : Card) : Bool :=
  match c.url with
  | some u => existing.contains u
  | none => false

/-- The per-card date condition of lines 962-970: a present release date
that is not within the time range. -/
def cardOutOfRange (today time_range : Int) (c : Card) : Bool :=
  match c.release_date with
  | some d => !is_within_time_range (some d) today time_range
  | none => false

/-- The inner card loop of `scan_website_stream` over one page: returns
the cards processed (in order) and whether `stop_pagination` was set.
An existing card is skipped but scanning continues; a dated out-of-range
card is included anyway when flagged top, and otherwise sets
`stop_pagination` and breaks out of the loop immediately. -/
def processCards (today time_range : Int) (existing : List String) :
    List Card → List Card × Bool
  | [] => ([], false)
  | c :: rest =>
    if cardSkipped existing c then processCards today time_range existing rest
    else if cardOutOfRange today time_range c then
      if c.isTop then
        ((c :: (processCards today time_range existing rest).1),
          (processCards today time_range existing rest).2)
      else ([], true)
    else
      ((c :: (processCards today time_range existing rest).1),
        (processCards today time_range existing rest).2)

/-- The next-page pagination loop: process each page in link order; stop
after the current page when `stop_pagination` was set, or when no next-page
element remains. -/
def scanSite (today time_range : Int) (existing : List String) :
    List (List Card) → List Card
  | [] => []
  | pg :: rest =>
    if (processCards today time_range existing pg).2 then
      (processCards today time_range existing pg).1
    else
      match rest with
      | [] => (processCards today time_range existing pg).1
      | _ => (processCards today time_range existing pg).1 ++
          scanSite today time_range existing rest

/-- The load-more pagination loop (lines 1066-1106): element `i` of the
trace is the full card list visible after `i` effective clicks.  After
processing the current list in full, a click that does not increase the
card count (or a missing button, modelled as the end of the trace) stops
the scan; otherwise the loop re-runs the card loop over the grown list.
The source initializes `processed_project_urls = set()` for session
duplicate tracking but never reads or updates it, so no skip based on it
appears here. -/
def loadMoreScan (today time_range : Int) (existing : List String) :
    List (List Card) → List Card
  | [] => []
  | [cur] => (processCards today time_range existing cur).1
  | cur :: next :: rest =>
    if (processCards today time_range existing cur).2 then
      (processCards today time_range existing cur).1
    else if next.length ≤ cur.length then
      (processCards today time_range existing cur).1
    else
      (processCards today time_range existing cur).1 ++
        loadMoreScan today time_range existing (next :: rest)

/-- A card that triggers the abort: not skipped as existing, not pinned,
and dated strictly before the cutoff. -/
def cardStops (today time_range : Int) (existing : List String) (c : Card) : Bool :=
  !cardSkipped existing c && !c.isTop && cardOutOfRange today time_range c

theorem processCards_cons_no_stop (today time_range : Int) (existing : List String)
    (c : Card) (rest : List Card)
    (hc : cardStops today time_range existing c = false) :
    processCards today time_range existing (c :: rest) =
      (if cardSkipped existing c then (processCards today time_range existing rest).1
       else c :: (processCards today time_range existing rest).1,
       (processCards today time_range existing rest).2) := by
  by_cases hsk : cardSkipped existing c = true
  · simp [processCards, hsk]
  · have hsk' : cardSkipped existing c = false := by simpa using hsk
    by_cases hdate : cardOutOfRange today time_range c = true
    · have htop : c.isTop = true := by
        cases hct : c.isTop with
        | true => rfl
        | false =>
          exfalso
          rw [cardStops, hsk', hdate, hct] at hc
          simp at hc
      simp [processCards, hsk', hdate, htop]
    · have hdate' : cardOutOfRange today time_range c = false := by simpa using hdate
      simp [processCards, hsk', hdate']

theorem processCards_append_stop (today time_range : Int) (existing : List String)
    (pre post : List Card) (bad : Card)
    (hpre : ∀ c ∈ pre, cardStops today time_range existing c = false)
    (hbad : cardStops today time_range existing bad = true) :
    processCards today time_range existing (pre ++ bad :: post) =
      ((processCards today time_range existing pre).1, true) := by
  induction pre with
  | nil =>
    have hsk : cardSkipped existing bad = false := by
      cases h : cardSkipped existing bad with
      | false => rfl
      | true => rw [cardStops, h] at hbad; simp at hbad
    have htop : bad.isTop = false := by
      cases h : bad.isTop with
      | false => rfl
      | true => rw [cardStops, h] at hbad; simp at hbad
    have hdate : cardOutOfRange today time_range bad = true := by
      cases h : cardOutOfRange today time_range bad with
      | true => rfl
      | false => rw [cardStops, h] at hbad; simp at hbad
    simp [processCards, hsk, htop, hdate]
  | cons c pre' ih =>
    have hc := hpre c (by simp)
    have ih' := ih (fun d hd => hpre d (by simp [hd]))
    rw [List.cons_append,
      processCards_cons_no_stop today time_range existing c _ hc,
      processCards_cons_no_stop today time_range existing c _ hc, ih']

/-- **C2 amended**: the first non-pinned, non-existing card whose parsed
date is strictly before the cutoff — by any amount, one day or one year —
aborts the entire site scan immediately: it is not emitted, the rest of the
current page is not processed, and no further page is visited.  Pinned
cards are always processed, and a card dated on or after the cutoff is
processed with pagination continuing. -/
theorem out_of_range_card_aborts_site (today time_range : Int)
    (existing : List String) (pre post : List Card) (bad : Card)
    (pages : List (List Card))
    (hpre : ∀ c ∈ pre, cardStops today time_range existing c = false)
    (hbad : cardStops today time_range existing bad = true) :
    (scanSite today time_range existing ((pre ++ bad :: post) :: pages) =
      (processCards today time_range existing pre).1) ∧
    (∀ c rest, cardSkipped existing c = false → c.isTop = true →
      processCards today time_range existing (c :: rest) =
        (c :: (processCards today time_range existing rest).1,
         (processCards today time_range existing rest).2)) := by
  constructor
  · have hstop := processCards_append_stop today time_range existing pre post bad
      hpre hbad
    simp [scanSite, hstop]
  · intro c rest hsk htop
    by_cases hdate : cardOutOfRange today time_range c = true
    · simp [processCards, hsk, hdate, htop]
    · have hdate' : cardOutOfRange today time_range c = false := by simpa using hdate
      simp [processCards, hsk, hdate']

/-- **C2 witness**: `timeRangeDays = 7`, today = day 100; a page holding a
fresh card, a pinned old card and a non-pinned card dated 8 days back,
followed by a second page: only the first two cards are emitted and the
second page is never visited. -/
theorem out_of_range_card_aborts_site_witness :
    scanSite 100 7 []
      [[{ url := some "fresh", release_date := some 100 },
        { url := some "pinnedOld", release_date := some 80, isTop := true },
        { url := some "old", release_date := some 92 },
        { url := some "after", release_date := some 100 }],
       [{ url := some "page2", release_date := some 100 }]] =
      [{ url := some "fresh", release_date := some 100 },
       { url := some "pinnedOld", release_date := some 80, isTop := true }] := by
  have h := (out_of_range_card_aborts_site 100 7 []
    [{ url := some "fresh", release_date := some 100 },
     { url := some "pinnedOld", release_date := some 80, isTop := true }]
    [{ url := some "after", release_date := some 100 }]
    { url := some "old", release_date := some 92 }
    [[{ url := some "page2", release_date := some 100 }]]
    (by decide) (by decide)).1
  rw [show ([{ url := some "fresh", release_date := some 100 },
      { url := some "pinnedOld", release_date := some 80, isTop := true }] ++
      ({ url := some "old", release_date := some 92 } : Card) ::
      [{ url := some "after", release_date := some 100 }]) =
      [{ url := some "fresh", release_date := some 100 },
       { url := some "pinnedOld", release_date := some 80, isTop := true },
       { url := some "old", release_date := some 92 },
       { url := some "after", release_date := some 100 }] from rfl] at h
  rw [h]
  decide

/-- **C2 counterexample**: a non-pinned card dated exactly on the cutoff
(`is_on_cutoff_date` holds) is treated as in range, the page finishes
**and pagination continues to the next page**, whose card is also
processed — the claim requires pagination for the site to stop after the
current page. -/
theorem cutoff_card_continues_pagination :
    (is_on_cutoff_date (some 93) 100 7 = true) ∧
    (scanSite 100 7 []
      [[{ url := some "u1", release_date := some 93 }],
       [{ url := some "u2", release_date := some 100 }]] =
      [{ url := some "u1", release_date := some 93 },
       { url := some "u2", release_date := some 100 }]) := by
  exact ⟨by decide, by decide⟩

/-! ## Scan lock (`backend/scan_service.py`) -/

/-- The mutable state of `ScanService`: the `_scan_lock` boolean and the
`active_scans` dictionary mapping scan ids to their cancellation flag. -/
structure ScanState where
  scan_lock : Bool
  active_scans : List (String × Bool)
deriving Repr, DecidableEq

/-- `_acquire_scan_lock`: non-blocking test-and-set. -/
def acquire_scan_lock (s : ScanState) : Bool × ScanState :=
  if s.scan_lock then (false, s) else (true, { s with scan_lock := true })

/-- `_release_scan_lock`. -/
def release_scan_lock (s : ScanState) : ScanState := { s with scan_lock := false }

/-- `_register_scan`: `active_scans[scan_id] = False`. -/
def register_scan (s : ScanState) (scan_id : String) : ScanState :=
  { s with active_scans :=
      if (alookup scan_id s.active_scans).isSome then
        s.active_scans.map (fun e => if e.1 = scan_id then (e.1, false) else e)
      else s.active_scans ++ [(scan_id, false)] }

/-- `_unregister_scan`: `del active_scans[scan_id]` when present. -/
def unregister_scan (s : ScanState) (scan_id : String) : ScanState :=
  { s with active_scans := s.active_scans.filter (fun e => decide (e.1 ≠ scan_id)) }

/-- `cancel_scan`: mark an active scan cancelled, reporting whether the id
was known. -/
def cancel_scan (s : ScanState) (scan_id : String) : Bool × ScanState :=
  if (alookup scan_id s.active_scans).isSome then
    (true, { s with active_scans :=
      s.active_scans.map (fun e => if e.1 = scan_id then (e.1, true) else e) })
  else (false, s)

/-- How the abstracted scan body terminates. -/
inductive ScanOutcome where
  | success
  | failure
  | cancelled
deriving Repr, DecidableEq

/-- Terminal observable of one `scan_projects_stream` call. -/
inductive ScanEvent where
  | errorAlreadyScanning
  | ran (outcome : ScanOutcome)
deriving Repr, DecidableEq

/-- The locking skeleton of `scan_projects_stream`: acquire or reject
immediately; on success register the scan, run the body (abstracted by its
outcome — the body never touches the lock), and in the `finally` block
always unregister and release, on success, error and cancellation alike. -/
def scan_projects_stream (s : ScanState) (scan_id : String) (outcome : ScanOutcome) :
    ScanState × ScanEvent :=
  match acquire_scan_lock s with
  | (false, s1) => (s1, .errorAlreadyScanning)
  | (true, s1) =>
    (release_scan_lock (unregister_scan (register_scan s1 scan_id) scan_id),
      .ran outcome)

theorem alookup_filter_ne (l : List (String × Bool)) (k : String) :
    alookup k (l.filter (fun e => decide (e.1 ≠ k))) = none := by
  induction l with
  | nil => rfl
  | cons e t ih =>
    rw [List.filter_cons]
    by_cases h : e.1 = k
    · rw [if_neg (by simp [h])]
      exact ih
    · rw [if_pos (by simp [h])]
      have hk : ¬k = e.1 := fun hh => h hh.symm
      simp only [alookup, if_neg hk]
      exact ih

/-- **C9**: starting a scan while the lock is held fails immediately with
the already-scanning error and leaves the state untouched; when the lock is
free, the call runs the body and, for every outcome (success, failure,
cancellation), the `finally` block leaves the lock released and the scan id
unregistered. -/
theorem scan_lock_exclusive (s : ScanState) (scan_id : String)
    (outcome : ScanOutcome) :
    (s.scan_lock = true →
      scan_projects_stream s scan_id outcome = (s, .errorAlreadyScanning)) ∧
    (s.scan_lock = false →
      (scan_projects_stream s scan_id outcome).2 = .ran outcome ∧
      (scan_projects_stream s scan_id outcome).1.scan_lock = false ∧
      alookup scan_id (scan_projects_stream s scan_id outcome).1.active_scans =
        none) := by
  constructor
  · intro h
    simp [scan_projects_stream, acquire_scan_lock, h]
  · intro h
    refine ⟨?_, ?_, ?_⟩
    · simp [scan_projects_stream, acquire_scan_lock, h]
    · simp [scan_projects_stream, acquire_scan_lock, h, release_scan_lock,
        unregister_scan, register_scan]
    · simp only [scan_projects_stream, acquire_scan_lock, h, Bool.false_eq_true,
        if_false, release_scan_lock, unregister_scan]
      exact alookup_filter_ne _ scan_id

/-- **C9 witness**: the theorem applied at a locked state (rejection, no
mutation) and at a free state for each termination outcome (lock released,
id unregistered). -/
theorem scan_lock_exclusive_witness :
    (scan_projects_stream ⟨true, [("a1b2c3d4", false)]⟩ "e5f6a7b8" .success =
      (⟨true, [("a1b2c3d4", false)]⟩, .errorAlreadyScanning)) ∧
    ((scan_projects_stream ⟨false, []⟩ "e5f6a7b8" .failure).1.scan_lock = false) ∧
    (alookup "e5f6a7b8"
      (scan_projects_stream ⟨false, []⟩ "e5f6a7b8" .cancelled).1.active_scans =
      none) :=
  ⟨(scan_lock_exclusive ⟨true, [("a1b2c3d4", false)]⟩ "e5f6a7b8" .success).1 rfl,
   ((scan_lock_exclusive ⟨false, []⟩ "e5f6a7b8" .failure).2 rfl).2.1,
   ((scan_lock_exclusive ⟨false, []⟩ "e5f6a7b8" .cancelled).2 rfl).2.2⟩

/-- **C8**: with load-more card counts 10, 15, 15 the scan stops when the
count stops growing, but the grown list is re-iterated in full: the first
ten cards are processed twice (`processed_project_urls` is initialized in
the source yet never read or written, so no session tracking prevents it),
and the cards of a would-be fourth state are never reached. -/
theorem load_more_reprocesses_cards :
    (loadMoreScan 100 7 []
      [[{ url := some "u1", release_date := some 100 },
   { url := some "u2", release_date := some 100 },
   { url := some "u3", release_date := some 100 },
   { url := some "u4", release_date := some 100 },
   { url := some "u5", release_date := some 100 },
   { url := some "u6", release_date := some 100 },
   { url := some "u7", release_date := some 100 },
   { url := some "u8", release_date := some 100 },
   { url := some "u9", release_date := some 100 },
   { url := some "u10", release_date := some 100 }],
       [{ url := some "u1", release_date := some 100 },
   { url := some "u2", release_date := some 100 },
   { url := some "u3", release_date := some 100 },
   { url := some "u4", release_date := some 100 },
   { url := some "u5", release_date := some 100 },
   { url := some "u6", release_date := some 100 },
   { url := some "u7", release_date := some 100 },
   { url := some "u8", release_date := some 100 },
   { url := some "u9", release_date := some 100 },
   { url := some "u10", release_date := some 100 },
   { url := some "u11", release_date := some 100 },
   { url := some "u12", release_date := some 100 },
   { url := some "u13", release_date := some 100 },
   { url := some "u14", release_date := some 100 },
   { url := some "u15", release_date := some 100 }],
       [{ url := some "u1", release_date := some 100 },
   { url := some "u2", release_date := some 100 },
   { url := some "u3", release_date := some 100 },
   { url := some "u4", release_date := some 100 },
   { url := some "u5", release_date := some 100 },
   { url := some "u6", release_date := some 100 },
   { url := some "u7", release_date := some 100 },
   { url := some "u8", release_date := some 100 },
   { url := some "u9", release_date := some 100 },
   { url := some "u10", release_date := some 100 },
   { url := some "u11", release_date := some 100 },
   { url := some "u12", release_date := some 100 },
   { url := some "u13", release_date := some 100 },
   { url := some "u14", release_date := some 100 },
   { url := some "u15", release_date := some 100 }],
       [{ url := some "u1", release_date := some 100 },
   { url := some "u2", release_date := some 100 },
   { url := some "u3", release_date := some 100 },
   { url := some "u4", release_date := some 100 },
   { url := some "u5", release_date := some 100 },
   { url := some "u6", release_date := some 100 },
   { url := some "u7", release_date := some 100 },
   { url := some "u8", release_date := some 100 },
   { url := some "u9", release_date := some 100 },
   { url := some "u10", release_date := some 100 },
   { url := some "u11", release_date := some 100 },
   { url := some "u12", release_date := some 100 },
   { url := some "u13", release_date := some 100 },
   { url := some "u14", release_date := some 100 },
   { url := some "u15", release_date := some 100 },
   { url := some "u16", release_date := some 100 },
   { url := some "u17", release_date := some 100 },
   { url := some "u18", release_date := some 100 },
   { url := some "u19", release_date := some 100 },
   { url := some "u20", release_date := some 100 }]] =
      [{ url := some "u1", release_date := some 100 },
   { url := some "u2", release_date := some 100 },
   { url := some "u3", release_date := some 100 },
   { url := some "u4", release_date := some 100 },
   { url := some "u5", release_date := some 100 },
   { url := some "u6", release_date := some 100 },
   { url := some "u7", release_date := some 100 },
   { url := some "u8", release_date := some 100 },
   { url := some "u9", release_date := some 100 },
   { url := some "u10", release_date := some 100 }] ++
      [{ url := some "u1", release_date := some 100 },
   { url := some "u2", release_date := some 100 },
   { url := some "u3", release_date := some 100 },
   { url := some "u4", release_date := some 100 },
   { url := some "u5", release_date := some 100 },
   { url := some "u6", release_date := some 100 },
   { url := some "u7", release_date := some 100 },
   { url := some "u8", release_date := some 100 },
   { url := some "u9", release_date := some 100 },
   { url := some "u10", release_date := some 100 },
   { url := some "u11", release_date := some 100 },
   { url := some "u12", release_date := some 100 },
   { url := some "u13", release_date := some 100 },
   { url := some "u14", release_date := some 100 },
   { url := some "u15", release_date := some 100 }]) ∧ 
    ((loadMoreScan 100 7 []
      [[{ url := some "u1", release_date := some 100 },
   { url := some "u2", release_date := some 100 },
   { url := some "u3", release_date := some 100 },
   { url := some "u4", release_date := some 100 },
   { url := some "u5", release_date := some 100 },
   { url := some "u6", release_date := some 100 },
   { url := some "u7", release_date := some 100 },
   { url := some "u8", release_date := some 100 },
   { url := some "u9", release_date := some 100 },
   { url := some "u10", release_date := some 100 }],
       [{ url := some "u1", release_date := some 100 },
   { url := some "u2", release_date := some 100 },
   { url := some "u3", release_date := some 100 },
   { url := some "u4", release_date := some 100 },
   { url := some "u5", release_date := some 100 },
   { url := some "u6", release_date := some 100 },
   { url := some "u7", release_date := some 100 },
   { url := some "u8", release_date := some 100 },
   { url := some "u9", release_date := some 100 },
   { url := some "u10", release_date := some 100 },
   { url := some "u11", release_date := some 100 },
   { url := some "u12", release_date := some 100 },
   { url := some "u13", release_date := some 100 },
   { url := some "u14", release_date := some 100 },
   { url := some "u15", release_date := some 100 }],
       [{ url := some "u1", release_date := some 100 },
   { url := some "u2", release_date := some 100 },
   { url := some "u3", release_date := some 100 },
   { url := some "u4", release_date := some 100 },
   { url := some "u5", release_date := some 100 },
   { url := some "u6", release_date := some 100 },
   { url := some "u7", release_date := some 100 },
   { url := some "u8", release_date := some 100 },
   { url := some "u9", release_date := some 100 },
   { url := some "u10", release_date := some 100 },
   { url := some "u11", release_date := some 100 },
   { url := some "u12", release_date := some 100 },
   { url := some "u13", release_date := some 100 },
   { url := some "u14", release_date := some 100 },
   { url := some "u15", release_date := some 100 }],
       [{ url := some "u1", release_date := some 100 },
   { url := some "u2", release_date := some 100 },
   { url := some "u3", release_date := some 100 },
   { url := some "u4", release_date := some 100 },
   { url := some "u5", release_date := some 100 },
   { url := some "u6", release_date := some 100 },
   { url := some "u7", release_date := some 100 },
   { url := some "u8", release_date := some 100 },
   { url := some "u9", release_date := some 100 },
   { url := some "u10", release_date := some 100 },
   { url := some "u11", release_date := some 100 },
   { url := some "u12", release_date := some 100 },
   { url := some "u13", release_date := some 100 },
   { url := some "u14", release_date := some 100 },
   { url := some "u15", release_date := some 100 },
   { url := some "u16", release_date := some 100 },
   { url := some "u17", release_date := some 100 },
   { url := some "u18", release_date := some 100 },
   { url := some "u19", release_date := some 100 },
   { url := some "u20", release_date := some 100 }]]).count
        { url := some "u1", release_date := some 100 } = 2) := by
  exact ⟨by decide, by decide⟩

end ProjectFinder
